import Mathlib

/-!
Verification of the asentry firmware (`src/firmware/code.py`, with the earlier
revision `src/code.py` where noted) against its natural-language specification.

The development shallowly embeds the three core components:
  * the snapshot diff engine `check_for_updates`,
  * the wrapped-text display controller `WrappedTextDisplay`,
  * the wait/scroll/timeout scheduler `wait_button_scroll_text`
together with the poll control loop and the data-fetch validation logic.

Numeric record fields (`ps_cum`, `ts_max`) arrive as decimal text in the wire
format and are compared after conversion via Python `float`; we model the
parsed values directly as rationals, so the comparisons below are the numeric
comparisons the code performs.  Python's in-place mutation of record dicts
(`object['is_new'] = ...`) is modelled by explicit state passing: the diff
returns both the post-call contents of the `latest_objects` list and the list
of changed objects (whose elements alias records of `latest_objects`).
-/

/-- One Sentry catalog record, restricted to the fields the core logic reads:
the opaque catalog `id`, the cumulative Palermo value `ps_cum` (always
present), the nullable Torino value `ts_max`, and the `is_new` marker which is
absent (`none`) on a raw fetched record and is attached by the diff engine
(`object['is_new'] = True/False` in the Python source). -/
structure ObjRecord where
  id : String
  ps_cum : ℚ
  ts_max : Option ℚ
  is_new : Option Bool := none
  deriving DecidableEq, Repr

/-- Erase the `is_new` marker of a record, leaving the raw fetched fields.
Used to state which fields the diff engine reads and which it mutates. -/
def withoutIsNew (o : ObjRecord) : ObjRecord :=
  { o with is_new := none }

/-- The escalation comparison inlined in `check_for_updates`
(src/firmware/code.py lines 217-220, identical in src/code.py lines 196-199):

    float(object['ps_cum']) > float(old_obj['ps_cum'])
    or (object['ts_max'] != None and old_obj['ts_max'] == None)
    or (object['ts_max'] != None and old_obj['ts_max'] != None
        and float(object['ts_max']) > float(old_obj['ts_max']))
-/
def threat_increased (object old_obj : ObjRecord) : Bool :=
  decide (object.ps_cum > old_obj.ps_cum)
  || (object.ts_max.isSome && old_obj.ts_max.isNone)
  || (match object.ts_max, old_obj.ts_max with
      | some x, some y => decide (x > y)
      | _, _ => false)

/-- Embedding of `check_for_updates(saved_objects, latest_objects)`
(src/firmware/code.py lines 202-224).  The Python function iterates over
`latest_objects`; a record with no id match in `saved_objects` is marked
`is_new = True` in place and appended to `changed_objects`; a matched record
satisfying the escalation comparison is marked `is_new = False` in place and
appended.  The result pair is `(latest_objects after the call,
changed_objects)`: the first component records the in-place mutations of the
latest snapshot, the second is the returned list. -/
def check_for_updates (saved_objects latest_objects : List ObjRecord) :
    List ObjRecord × List ObjRecord :=
  match latest_objects with
  | [] => ([], [])
  | object :: rest =>
    let r := check_for_updates saved_objects rest
    let found := saved_objects.filter (fun old => old.id == object.id)
    match found with
    | [] =>
      let object1 := { object with is_new := some true }
      (object1 :: r.1, object1 :: r.2)
    | old_obj :: _ =>
      if threat_increased object old_obj then
        let object1 := { object with is_new := some false }
        (object1 :: r.1, object1 :: r.2)
      else
        (object :: r.1, r.2)

/-- Modelled from the spec's wording of the escalation condition (claim C1 /
spec section 4.1): latest `ps_cum` strictly greater, or latest `ts_max`
present while baseline `ts_max` is null, or both present and latest `ts_max`
numerically greater.  Stated independently of the code's inlined condition so
the diff result can be compared against the spec's description. -/
def spec_escalated (latest baseline : ObjRecord) : Bool :=
  decide (latest.ps_cum > baseline.ps_cum)
  || (latest.ts_max.isSome && baseline.ts_max == none)
  || (latest.ts_max.isSome && baseline.ts_max.isSome
      && decide (latest.ts_max.getD 0 > baseline.ts_max.getD 0))

/-- Modelled from the spec's description of the diff (claim C1): for each
record of `latest` in order, look up the first baseline record with the same
id; no match means new (`is_new = true`), a match is included exactly when the
escalation condition holds (`is_new = false`); records present only in
`baseline` are ignored. -/
def spec_diff (baseline latest : List ObjRecord) : List ObjRecord :=
  latest.filterMap (fun o =>
    match baseline.find? (fun b => b.id == o.id) with
    | none => some { o with is_new := some true }
    | some b =>
      if spec_escalated o b then some { o with is_new := some false } else none)

set_option maxRecDepth 2000 in
lemma spec_escalated_eq_threat_increased (o b : ObjRecord) :
    spec_escalated o b = threat_increased o b := by
  unfold spec_escalated threat_increased
  cases o.ts_max <;> cases b.ts_max <;> simp

lemma find?_eq_head?_filter {α : Type} (p : α → Bool) (l : List α) :
    l.find? p = (l.filter p).head? := by
  induction l with
  | nil => rfl
  | cons a l ih =>
    by_cases h : p a
    · rw [List.find?_cons_of_pos _ h, List.filter_cons_of_pos h, List.head?_cons]
    · rw [List.find?_cons_of_neg _ h, List.filter_cons_of_neg h, ih]

/-- C1: for every baseline and latest snapshot, the diff returns exactly the
records of `latest` that are new (no baseline id match, marked
`is_new = true`) or escalated (id match satisfying the escalation condition,
marked `is_new = false`), in the order of `latest`; records present only in
`baseline` never appear, and the result is empty when no record is new or
escalated.  All of this is captured by equality with `spec_diff`, the
filterMap written from the claim's wording. -/
theorem diff_returns_new_and_escalated_in_latest_order
    (s l : List ObjRecord) :
    (check_for_updates s l).2 = spec_diff s l := by
  induction l with
  | nil => rfl
  | cons o rest ih =>
    simp only [check_for_updates, spec_diff, List.filterMap_cons] at ih ⊢
    rw [find?_eq_head?_filter]
    cases h : s.filter (fun b => b.id == o.id) with
    | nil => simp [h, ih]
    | cons b t =>
      simp only [List.head?]
      rw [spec_escalated_eq_threat_increased]
      by_cases hesc : threat_increased o b
      · simp [hesc, ih]
      · simp [hesc, ih]

/-- C2: with equal `ps_cum`, a null-to-null `ts_max` pair is never reported as
escalated; a null latest `ts_max` is never treated as greater than or equal to
a present baseline value; and a transition from null to any present numeric
`ts_max` (including 0) is always reported as an escalation. -/
theorem null_torino_is_tri_state (o b : ObjRecord) (h : o.ps_cum = b.ps_cum) :
    (o.ts_max = none → b.ts_max = none → threat_increased o b = false)
    ∧ (∀ v : ℚ, o.ts_max = none → b.ts_max = some v → threat_increased o b = false)
    ∧ (∀ x : ℚ, o.ts_max = some x → b.ts_max = none → threat_increased o b = true) := by
  refine ⟨?_, ?_, ?_⟩
  · intro h1 h2
    unfold threat_increased
    rw [h1, h2, h]
    simp
  · intro v h1 h2
    unfold threat_increased
    rw [h1, h2, h]
    simp
  · intro x h1 h2
    unfold threat_increased
    rw [h1, h2]
    simp

/-- Witness for `null_torino_is_tri_state` at concrete records: a null→null
pair with equal Palermo value is not escalated, and a null→0 transition is. -/
theorem null_torino_is_tri_state_witness :
    threat_increased { id := "A", ps_cum := -2, ts_max := none }
        { id := "A", ps_cum := -2, ts_max := none } = false
    ∧ threat_increased { id := "A", ps_cum := -2, ts_max := some 0 }
        { id := "A", ps_cum := -2, ts_max := none } = true :=
  ⟨(null_torino_is_tri_state { id := "A", ps_cum := -2, ts_max := none }
      { id := "A", ps_cum := -2, ts_max := none } rfl).1 rfl rfl,
   (null_torino_is_tri_state { id := "A", ps_cum := -2, ts_max := some 0 }
      { id := "A", ps_cum := -2, ts_max := none } rfl).2.2 0 rfl rfl⟩

lemma check_for_updates_fst_fields (s l : List ObjRecord) :
    (check_for_updates s l).1.map withoutIsNew = l.map withoutIsNew := by
  induction l with
  | nil => rfl
  | cons o rest ih =>
    simp only [check_for_updates, List.map_cons]
    cases h : s.filter (fun old => old.id == o.id) with
    | nil => simp [ih, withoutIsNew]
    | cons b t =>
      by_cases hesc : threat_increased o b
      · simp [hesc, ih, withoutIsNew]
      · simp [hesc, ih]

lemma check_for_updates_ignores_saved_is_new (s l : List ObjRecord) :
    check_for_updates (s.map withoutIsNew) l = check_for_updates s l := by
  induction l with
  | nil => rfl
  | cons o rest ih =>
    simp only [check_for_updates]
    have hfilter : (s.map withoutIsNew).filter (fun old => old.id == o.id)
        = (s.filter (fun old => old.id == o.id)).map withoutIsNew := by
      rw [List.filter_map]
      rfl
    rw [hfilter, ih]
    cases h : s.filter (fun old => old.id == o.id) with
    | nil => simp
    | cons b t => simp [show threat_increased o (withoutIsNew b) = threat_increased o b from rfl]

lemma check_for_updates_snd_eq_filter_fst (s : List ObjRecord) :
    ∀ l : List ObjRecord, (∀ o ∈ l, o.is_new = none) →
      (check_for_updates s l).2
        = (check_for_updates s l).1.filter (fun o => o.is_new.isSome) := by
  intro l
  induction l with
  | nil => intro _; rfl
  | cons o rest ih =>
    intro hraw
    have ho : o.is_new = none := hraw o (List.mem_cons_self o rest)
    have hrest := ih (fun x hx => hraw x (List.mem_cons_of_mem o hx))
    simp only [check_for_updates]
    cases h : s.filter (fun old => old.id == o.id) with
    | nil => simp [List.filter, hrest]
    | cons b t =>
      by_cases hesc : threat_increased o b
      · simp [hesc, List.filter, hrest]
      · simp [hesc, List.filter, hrest, ho]

lemma check_for_updates_idem (s l : List ObjRecord) :
    check_for_updates s (check_for_updates s l).1 = check_for_updates s l := by
  induction l with
  | nil => rfl
  | cons o rest ih =>
    simp only [check_for_updates]
    cases h : s.filter (fun old => old.id == o.id) with
    | nil =>
      simp only [check_for_updates,
        show (s.filter (fun old => old.id == { o with is_new := some true }.id))
          = s.filter (fun old => old.id == o.id) from rfl, h, ih]
    | cons b t =>
      by_cases hesc : threat_increased o b
      · simp only [hesc, if_true, check_for_updates,
          show (s.filter (fun old => old.id == { o with is_new := some false }.id))
            = s.filter (fun old => old.id == o.id) from rfl, h, ih,
          show threat_increased { o with is_new := some false } b
            = threat_increased o b from rfl]
      · simp only [hesc, if_false, check_for_updates, h, ih,
          Bool.false_eq_true, ite_false]

/-- Counterexample to C4 as stated: the diff does attach the `is_new` marker
to records of the raw fetched latest snapshot.  `check_for_updates` assigns
`object['is_new'] = True` on the record dicts of `latest_objects` themselves
(the returned list aliases them), so after the call the latest snapshot's
record carries `is_new` even though the raw fetched record did not. -/
theorem diff_mutates_latest_records_counterexample :
    (check_for_updates [] [{ id := "A", ps_cum := 0, ts_max := none }]).1
      = [{ id := "A", ps_cum := 0, ts_max := none, is_new := some true }]
    ∧ ({ id := "A", ps_cum := 0, ts_max := none, is_new := some true } : ObjRecord)
      ≠ { id := "A", ps_cum := 0, ts_max := none } := by
  exact ⟨rfl, by decide⟩

/-- C4 amended: the diff never modifies baseline records and ignores any
pre-existing `is_new` state of the baseline; it marks `is_new` by mutating the
new/escalated records of the latest snapshot in place, so the returned
sequence is exactly the marked records of the (post-call) latest snapshot;
the mutation touches no field other than `is_new`; and re-running the diff on
the mutated latest snapshot reproduces the same result (the marks carry no
information the diff reads). -/
theorem diff_pure_except_in_place_is_new_marks (s l : List ObjRecord)
    (hraw : ∀ o ∈ l, o.is_new = none) :
    (check_for_updates s l).2
        = (check_for_updates s l).1.filter (fun o => o.is_new.isSome)
    ∧ check_for_updates (s.map withoutIsNew) l = check_for_updates s l
    ∧ (check_for_updates s l).1.map withoutIsNew = l.map withoutIsNew
    ∧ check_for_updates s (check_for_updates s l).1 = check_for_updates s l :=
  ⟨check_for_updates_snd_eq_filter_fst s l hraw,
   check_for_updates_ignores_saved_is_new s l,
   check_for_updates_fst_fields s l,
   check_for_updates_idem s l⟩

/-- Witness for `diff_pure_except_in_place_is_new_marks` at a concrete
baseline (with a stale `is_new` mark) and a concrete raw latest snapshot. -/
theorem diff_pure_except_in_place_is_new_marks_witness :
    (check_for_updates [{ id := "B", ps_cum := 0, ts_max := none, is_new := some true }]
        [{ id := "A", ps_cum := 0, ts_max := none }]).2
      = (check_for_updates [{ id := "B", ps_cum := 0, ts_max := none, is_new := some true }]
          [{ id := "A", ps_cum := 0, ts_max := none }]).1.filter
            (fun o => o.is_new.isSome) :=
  (diff_pure_except_in_place_is_new_marks
    [{ id := "B", ps_cum := 0, ts_max := none, is_new := some true }]
    [{ id := "A", ps_cum := 0, ts_max := none }] (by decide)).1

/-! Display constants from src/firmware/code.py lines 44-50 (identical in
src/code.py lines 36-42). -/

def display_width : Nat := 128

def display_height : Nat := 64

def line_spacing : Nat := 12

/-- State of the `WrappedTextDisplay` controller (src/firmware/code.py lines
61-130).  `labels` models the text currently held by the `Label` rendering
primitives appended to the `displayio.Group` (one per visible row); the
word-wrap collaborator `wrap_text_to_pixels` is an external function of the
text alone (width and font are fixed), so the operations are parametrized by
`wrap : String → List String`. -/
structure WrappedTextDisplay where
  offset : Nat
  max_lines : Nat
  lines : List String
  text : String
  labels : List String
  deriving DecidableEq, Repr

/-- The controller's initial state: `max_lines` labels holding `""`,
buffer `[""]`, empty logical text, offset 0. -/
def initDisplay : WrappedTextDisplay :=
  { offset := 0
  , max_lines := display_height / line_spacing
  , lines := [""]
  , text := ""
  , labels := List.replicate (display_height / line_spacing) "" }

/-- Python `max(0, len(self.lines) - self.max_lines)`; truncated `Nat`
subtraction is exactly `max 0` of the integer difference. -/
def max_offset (d : WrappedTextDisplay) : Nat :=
  d.lines.length - d.max_lines

def set_text (wrap : String → List String) (d : WrappedTextDisplay)
    (text : String) : WrappedTextDisplay :=
  { d with text := text, lines := wrap text, offset := 0 }

def scroll_to_end (d : WrappedTextDisplay) : WrappedTextDisplay :=
  { d with offset := max_offset d }

/-- Embedding of `add_text` (src/firmware/code.py lines 82-89): join the new
text onto the last buffer line (or use it alone when the buffer is empty),
replace the final line with the re-wrapped text (`self.lines[-1:] = ...`),
then scroll to the end. -/
def add_text (wrap : String → List String) (d : WrappedTextDisplay)
    (new_text : String) : WrappedTextDisplay :=
  let text := match d.lines.getLast? with
    | some last => last ++ new_text
    | none => new_text
  scroll_to_end { d with lines := d.lines.dropLast ++ wrap text }

def scroll_next_line (d : WrappedTextDisplay) : WrappedTextDisplay :=
  { d with offset := (d.offset + 1) % (max_offset d + 1) }

def on_last_line (d : WrappedTextDisplay) : Bool :=
  d.offset == max_offset d

/-- The text `refresh` computes for visible row `i`: the buffer line at
`i + offset`, or `""` past the buffer's end. -/
def rowText (d : WrappedTextDisplay) (i : Nat) : String :=
  if i + d.offset ≥ d.lines.length then "" else d.lines.getD (i + d.offset) ""

/-- Embedding of `refresh` (src/firmware/code.py lines 118-130): each label is
assigned its row text only when it differs from what it currently holds.  The
second component counts the label writes performed ('redraws issued to the
underlying primitive'). -/
def refresh (d : WrappedTextDisplay) : WrappedTextDisplay × Nat :=
  let labels := (List.range d.labels.length).map (fun i =>
    if rowText d i ≠ d.labels.getD i "" then rowText d i else d.labels.getD i "")
  let writes := (List.range d.labels.length).countP (fun i =>
    decide (rowText d i ≠ d.labels.getD i ""))
  ({ d with labels := labels }, writes)

def show_disp (wrap : String → List String) (d : WrappedTextDisplay)
    (text : String) : WrappedTextDisplay :=
  (refresh (set_text wrap d text)).1

/-- C5: appending to a non-empty buffer concatenates onto the last line,
re-wraps only that trailing text, replaces the final line with the re-wrapped
lines (all earlier lines unchanged), and sets the offset to `max_offset`. -/
theorem add_text_rewraps_only_last_line (wrap : String → List String)
    (d : WrappedTextDisplay) (s : String) (h : d.lines ≠ []) :
    (add_text wrap d s).lines = d.lines.dropLast ++ wrap (d.lines.getLast h ++ s)
    ∧ (add_text wrap d s).lines.take (d.lines.length - 1)
        = d.lines.take (d.lines.length - 1)
    ∧ (add_text wrap d s).offset = max_offset (add_text wrap d s) := by
  have hlast : d.lines.getLast? = some (d.lines.getLast h) :=
    List.getLast?_eq_getLast d.lines h
  have hlines : (add_text wrap d s).lines
      = d.lines.dropLast ++ wrap (d.lines.getLast h ++ s) := by
    simp [add_text, scroll_to_end, hlast]
  refine ⟨hlines, ?_, ?_⟩
  · rw [hlines, ← List.length_dropLast, List.take_left, List.length_dropLast,
      ← List.dropLast_eq_take]
  · simp [add_text, scroll_to_end, max_offset]

/-- A concrete wrap collaborator for witnesses: one line per text. -/
def wrapOneLine : String → List String := fun t => [t]

/-- Witness for `add_text_rewraps_only_last_line` at a concrete state. -/
theorem add_text_rewraps_only_last_line_witness :
    (add_text wrapOneLine { initDisplay with lines := ["ab", "cd"] } "ef").lines
      = ["ab", "cdef"]
    ∧ (add_text wrapOneLine { initDisplay with lines := ["ab", "cd"] } "ef").offset
      = max_offset (add_text wrapOneLine { initDisplay with lines := ["ab", "cd"] } "ef") := by
  have h := add_text_rewraps_only_last_line wrapOneLine
    { initDisplay with lines := ["ab", "cd"] } "ef" (by decide)
  exact ⟨by rw [h.1]; rfl, h.2.2⟩

/-- One operation of the display controller, for stating state-machine
invariants over arbitrary call sequences. -/
inductive DispOp
  | setTextOp (s : String)
  | addTextOp (s : String)
  | scrollNextLineOp
  | refreshOp
  deriving Repr

def applyOp (wrap : String → List String) (d : WrappedTextDisplay) :
    DispOp → WrappedTextDisplay
  | DispOp.setTextOp s => set_text wrap d s
  | DispOp.addTextOp s => add_text wrap d s
  | DispOp.scrollNextLineOp => scroll_next_line d
  | DispOp.refreshOp => (refresh d).1

def applyOps (wrap : String → List String) (d : WrappedTextDisplay)
    (ops : List DispOp) : WrappedTextDisplay :=
  ops.foldl (applyOp wrap) d

lemma applyOp_offset_le (wrap : String → List String) (d : WrappedTextDisplay)
    (op : DispOp) (h : d.offset ≤ max_offset d) :
    (applyOp wrap d op).offset ≤ max_offset (applyOp wrap d op) := by
  cases op with
  | setTextOp s => exact Nat.zero_le _
  | addTextOp s => exact Nat.le_refl _
  | scrollNextLineOp =>
    exact Nat.lt_succ_iff.mp (Nat.mod_lt _ (Nat.succ_pos _))
  | refreshOp => exact h

lemma applyOps_offset_le (wrap : String → List String) (ops : List DispOp) :
    ∀ d : WrappedTextDisplay, d.offset ≤ max_offset d →
      (applyOps wrap d ops).offset ≤ max_offset (applyOps wrap d ops) := by
  induction ops with
  | nil => intro d h; exact h
  | cons op ops ih =>
    intro d h
    exact ih (applyOp wrap d op) (applyOp_offset_le wrap d op h)

/-- C6: across every sequence of `set_text` / `add_text` / `scroll_next_line`
/ `refresh` calls from the initial state, the offset stays within
`max_offset = max(0, len(lines) - max_lines)`; and whenever the wrapped
content fits the viewport (`max_offset = 0`), `scroll_next_line` is a no-op,
so repeated calls leave the state fixed. -/
theorem display_offset_invariant (wrap : String → List String)
    (ops : List DispOp) :
    (applyOps wrap initDisplay ops).offset ≤ max_offset (applyOps wrap initDisplay ops)
    ∧ max_offset (applyOps wrap initDisplay ops)
        = max 0 ((applyOps wrap initDisplay ops).lines.length
            - (applyOps wrap initDisplay ops).max_lines)
    ∧ (max_offset (applyOps wrap initDisplay ops) = 0 →
        scroll_next_line (applyOps wrap initDisplay ops) = applyOps wrap initDisplay ops) := by
  have hinv := applyOps_offset_le wrap ops initDisplay (Nat.zero_le _)
  refine ⟨hinv, (Nat.zero_max _).symm, ?_⟩
  intro h0
  have hoff : (applyOps wrap initDisplay ops).offset = 0 :=
    Nat.le_antisymm (h0 ▸ hinv) (Nat.zero_le _)
  unfold scroll_next_line
  rw [h0]
  have h1 : ((applyOps wrap initDisplay ops).offset + 1) % (0 + 1)
      = (applyOps wrap initDisplay ops).offset := by
    rw [hoff]
  rw [h1]

/-- Witness for `display_offset_invariant`: after `set_text` of a one-line
text the content fits the viewport and `scroll_next_line` is a no-op. -/
theorem display_offset_invariant_witness :
    scroll_next_line (applyOps wrapOneLine initDisplay [DispOp.setTextOp "x"])
      = applyOps wrapOneLine initDisplay [DispOp.setTextOp "x"] :=
  (display_offset_invariant wrapOneLine [DispOp.setTextOp "x"]).2.2 (by decide)

lemma refresh_labels_getD (d : WrappedTextDisplay) (i : Nat)
    (h : i < d.labels.length) :
    (refresh d).1.labels.getD i "" = rowText d i := by
  have hlab : (refresh d).1.labels = (List.range d.labels.length).map (fun j =>
      if rowText d j ≠ d.labels.getD j "" then rowText d j
      else d.labels.getD j "") := rfl
  rw [hlab, List.getD_eq_getElem?_getD, List.getElem?_map, List.getElem?_range h]
  simp only [Option.map_some', Option.getD_some]
  by_cases hne : rowText d i ≠ d.labels.getD i ""
  · simp [hne]
    exact fun h' => h'.symm
  · push_neg at hne
    simp [hne]

/-- C7: `refresh` writes a visible row's label only when the row's buffer text
differs from what that label currently holds (zero writes exactly when every
row already matches), and a second `refresh` with no intervening mutation
performs exactly zero label writes. -/
theorem refresh_writes_only_changed_rows (d : WrappedTextDisplay) :
    ((refresh d).2 = 0 ↔ ∀ i, i < d.labels.length → rowText d i = d.labels.getD i "")
    ∧ (refresh (refresh d).1).2 = 0 := by
  constructor
  · show ((List.range d.labels.length).countP
        (fun i => decide (rowText d i ≠ d.labels.getD i ""))) = 0 ↔ _
    rw [List.countP_eq_zero]
    constructor
    · intro h i hi
      have := h i (List.mem_range.mpr hi)
      simpa using this
    · intro h i hi
      have := h i (List.mem_range.mp hi)
      simpa using this
  · show ((List.range (refresh d).1.labels.length).countP
        (fun i => decide (rowText (refresh d).1 i ≠ (refresh d).1.labels.getD i ""))) = 0
    rw [List.countP_eq_zero]
    intro i hi
    have hlen : (refresh d).1.labels.length = d.labels.length := by
      show ((List.range d.labels.length).map _).length = d.labels.length
      rw [List.length_map, List.length_range]
    have hi2 : i < d.labels.length := hlen ▸ List.mem_range.mp hi
    have h1 : rowText (refresh d).1 i = rowText d i := rfl
    have h2 : (refresh d).1.labels.getD i "" = rowText d i := refresh_labels_getD d i hi2
    simp [h1, ← List.getD_eq_getElem?_getD, h2]

/-- Witness for `refresh_writes_only_changed_rows` at the initial state:
the first refresh performs zero writes since every label already holds the
empty row text, matching the iff at every visible row. -/
theorem refresh_writes_only_changed_rows_witness :
    (refresh initDisplay).2 = 0 :=
  (refresh_writes_only_changed_rows initDisplay).1.mpr (by decide)

/-! Tick arithmetic of the `adafruit_ticks` collaborator: a 2^29-period
wrapping counter with `ticks_add`, `ticks_diff` and `ticks_less`. -/

def TICKS_PERIOD : Nat := 2 ^ 29

def TICKS_HALFPERIOD : Nat := TICKS_PERIOD / 2

def ticks_add (ticks delta : Nat) : Nat :=
  (ticks + delta) % TICKS_PERIOD

def ticks_diff (ticks1 ticks2 : Nat) : Int :=
  (((ticks1 : Int) - (ticks2 : Int)) % (TICKS_PERIOD : Int) + (TICKS_HALFPERIOD : Int))
      % (TICKS_PERIOD : Int) - (TICKS_HALFPERIOD : Int)

def ticks_less (ticks1 ticks2 : Nat) : Bool :=
  decide (ticks_diff ticks1 ticks2 < 0)

/-- One event from the `keypad.Keys` press-event queue. -/
structure KeyEvent where
  pressed : Bool
  deriving DecidableEq, Repr

/-- Pop the head of the event queue: `button.events.get()` returns the oldest
queued event, or nothing when the queue is empty. -/
def events_get (q : List KeyEvent) : Option KeyEvent × List KeyEvent :=
  match q with
  | [] => (none, [])
  | e :: rest => (some e, rest)

/-- Environment input of one iteration of the scheduler loop: the events the
hardware pushed onto the queue since the previous iteration, the `ticks_ms()`
value read for the deadline checks, and the `ticks_ms()` value read in the
scroll check. -/
structure SchedTick where
  arrivals : List KeyEvent
  now : Nat
  now2 : Nat
  deriving DecidableEq, Repr

/-- Why `wait_button_scroll_text` returned. -/
inductive ExitReason
  | buttonPressed
  | maxTimeElapsed
  deriving DecidableEq, Repr

/-- Mutable state threaded through the scheduler loop: the button event
queue, the display, the remaining `screen_time` (0 once the screen-clear has
fired or when it was never requested) and the scroll deadline. -/
structure SchedState where
  queue : List KeyEvent
  disp : WrappedTextDisplay
  screen_time : Nat
  scroll_time : Nat
  deriving DecidableEq, Repr

/-- One iteration of the loop of the firmware `wait_button_scroll_text`
(src/firmware/code.py lines 146-160): check a pressed-button event first,
then the max-wait deadline, then the screen-clear deadline (clearing the
display once), then the scroll deadline (advance one line, redraw, and
reschedule with a 6000 ms dwell on the last line, else 1000 ms). -/
def stepFw (wrap : String → List String) (max_time timeout screen_timeout : Nat)
    (tick : SchedTick) (st : SchedState) : ExitReason ⊕ SchedState :=
  let got := events_get (st.queue ++ tick.arrivals)
  if (got.1.map KeyEvent.pressed).getD false then
    Sum.inl ExitReason.buttonPressed
  else if (max_time != 0) && ticks_less timeout tick.now then
    Sum.inl ExitReason.maxTimeElapsed
  else
    let st1 : SchedState := { st with queue := got.2 }
    let st2 : SchedState :=
      if (st1.screen_time != 0) && ticks_less screen_timeout tick.now then
        { st1 with disp := show_disp wrap st1.disp "", screen_time := 0 }
      else st1
    let st3 : SchedState :=
      if decide (0 < max_offset st2.disp) && ticks_less st2.scroll_time tick.now2 then
        let d := (refresh (scroll_next_line st2.disp)).1
        { st2 with disp := d
                 , scroll_time := ticks_add st2.scroll_time
                     (if on_last_line d then 6000 else 1000) }
      else st2
    Sum.inr st3

/-- Run the firmware scheduler loop over a finite trace of environment
inputs; stops at the first exit, else returns the final state with no exit. -/
def runFw (wrap : String → List String) (max_time timeout screen_timeout : Nat) :
    List SchedTick → SchedState → Option ExitReason × SchedState
  | [], st => (none, st)
  | tick :: rest, st =>
    match stepFw wrap max_time timeout screen_timeout tick st with
    | Sum.inl r => (some r, st)
    | Sum.inr st1 => runFw wrap max_time timeout screen_timeout rest st1

/-- Embedding of the firmware `wait_button_scroll_text(button, max_time,
screen_time)` (src/firmware/code.py lines 133-160): clear the button event
queue, compute the scroll / max-wait / screen-clear deadlines from the entry
tick count, then loop.  `button_queue` is the queue contents at entry; the
call discards them (`button.events.clear()`). -/
def wait_button_scroll_text_fw (wrap : String → List String)
    (button_queue : List KeyEvent) (disp : WrappedTextDisplay)
    (max_time screen_time : Nat) (entry_now : Nat) (ticks : List SchedTick) :
    Option ExitReason × SchedState :=
  let _ := button_queue
  let queue : List KeyEvent := []
  let scroll_wait_ms := 6000
  let scroll_time := ticks_add entry_now (if on_last_line disp then scroll_wait_ms else 1000)
  let timeout := ticks_add entry_now (max_time * 1000)
  let screen_timeout := ticks_add entry_now (screen_time * 1000)
  runFw wrap max_time timeout screen_timeout ticks
    { queue := queue, disp := disp, screen_time := screen_time, scroll_time := scroll_time }

/-- One iteration of the loop of the earlier revision's
`wait_button_scroll_text` (src/code.py lines 132-141): the max-wait deadline
is checked before the button event, there is no screen-clear deadline, and
the last-line dwell is 5000 ms. -/
def stepOld (wrap : String → List String) (max_time timeout : Nat)
    (tick : SchedTick) (st : SchedState) : ExitReason ⊕ SchedState :=
  let _ := wrap
  if (max_time != 0) && ticks_less timeout tick.now then
    Sum.inl ExitReason.maxTimeElapsed
  else
    let got := events_get (st.queue ++ tick.arrivals)
    if (got.1.map KeyEvent.pressed).getD false then
      Sum.inl ExitReason.buttonPressed
    else
      let st1 : SchedState := { st with queue := got.2 }
      let st2 : SchedState :=
        if decide (0 < max_offset st1.disp) && ticks_less st1.scroll_time tick.now2 then
          let d := (refresh (scroll_next_line st1.disp)).1
          { st1 with disp := d
                   , scroll_time := ticks_add st1.scroll_time
                       (if on_last_line d then 5000 else 1000) }
        else st1
      Sum.inr st2

/-- Run the earlier revision's scheduler loop over a finite trace of
environment inputs; stops at the first exit, else returns the final state
with no exit. -/
def runOld (wrap : String → List String) (max_time timeout : Nat) :
    List SchedTick → SchedState → Option ExitReason × SchedState
  | [], st => (none, st)
  | tick :: rest, st =>
    match stepOld wrap max_time timeout tick st with
    | Sum.inl r => (some r, st)
    | Sum.inr st1 => runOld wrap max_time timeout rest st1

/-- Embedding of the earlier revision's `wait_button_scroll_text(button,
max_time)` (src/code.py lines 125-141): clear the button event queue
(`button.events.clear()`, src/code.py line 128), compute the scroll deadline
from one `ticks_ms()` read and the max-wait deadline from a second, then
loop.  This revision has no screen-clear deadline, so the state's
`screen_time` stays 0.  `button_queue` is the queue contents at entry; the
call discards them. -/
def wait_button_scroll_text_old (wrap : String → List String)
    (button_queue : List KeyEvent) (disp : WrappedTextDisplay)
    (max_time : Nat) (entry_now entry_now2 : Nat) (ticks : List SchedTick) :
    Option ExitReason × SchedState :=
  let _ := button_queue
  let queue : List KeyEvent := []
  let scroll_time := ticks_add entry_now (if on_last_line disp then 5000 else 1000)
  let timeout := ticks_add entry_now2 (max_time * 1000)
  runOld wrap max_time timeout ticks
    { queue := queue, disp := disp, screen_time := 0, scroll_time := scroll_time }

lemma stepFw_inl (wrap : String → List String) (mt tt stt : Nat)
    (tick : SchedTick) (st : SchedState) (r : ExitReason)
    (h : stepFw wrap mt tt stt tick st = Sum.inl r) :
    (r = ExitReason.buttonPressed
      ∧ (((events_get (st.queue ++ tick.arrivals)).1.map KeyEvent.pressed).getD false) = true)
    ∨ (r = ExitReason.maxTimeElapsed ∧ mt ≠ 0) := by
  unfold stepFw at h
  by_cases h1 : (((events_get (st.queue ++ tick.arrivals)).1.map KeyEvent.pressed).getD false) = true
  · simp only [h1, if_true] at h
    injection h with h2
    exact Or.inl ⟨h2.symm, h1⟩
  · rw [Bool.not_eq_true] at h1
    simp only [h1, Bool.false_eq_true, if_false] at h
    by_cases h2 : ((mt != 0) && ticks_less tt tick.now) = true
    · simp only [h2, if_true] at h
      injection h with h3
      refine Or.inr ⟨h3.symm, ?_⟩
      have h4 : (mt != 0) = true := ((Bool.and_eq_true _ _).mp h2).1
      simpa using h4
    · rw [Bool.not_eq_true] at h2
      simp only [h2, Bool.false_eq_true, if_false] at h
      exact absurd h (by simp)

lemma stepFw_inr_queue (wrap : String → List String) (mt tt stt : Nat)
    (tick : SchedTick) (st st' : SchedState)
    (h : stepFw wrap mt tt stt tick st = Sum.inr st') :
    st'.queue = (events_get (st.queue ++ tick.arrivals)).2 := by
  unfold stepFw at h
  by_cases h1 : (((events_get (st.queue ++ tick.arrivals)).1.map KeyEvent.pressed).getD false) = true
  · simp only [h1, if_true] at h
    exact absurd h (by simp)
  · rw [Bool.not_eq_true] at h1
    simp only [h1, Bool.false_eq_true, if_false] at h
    by_cases h2 : ((mt != 0) && ticks_less tt tick.now) = true
    · simp only [h2, if_true] at h
      exact absurd h (by simp)
    · rw [Bool.not_eq_true] at h2
      simp only [h2, Bool.false_eq_true, if_false] at h
      injection h with h3
      rw [← h3]
      split <;> split <;> rfl

lemma stepFw_button_first (wrap : String → List String) (mt tt stt : Nat)
    (tick : SchedTick) (st : SchedState) (e : KeyEvent)
    (hhead : (st.queue ++ tick.arrivals).head? = some e) (hp : e.pressed = true) :
    stepFw wrap mt tt stt tick st = Sum.inl ExitReason.buttonPressed := by
  unfold stepFw
  cases hq : st.queue ++ tick.arrivals with
  | nil => rw [hq] at hhead; simp at hhead
  | cons a q =>
    rw [hq] at hhead
    rw [List.head?_cons, Option.some_inj] at hhead
    subst hhead
    simp [events_get, hp]

lemma stepOld_inl (wrap : String → List String) (mt tt : Nat)
    (tick : SchedTick) (st : SchedState) (r : ExitReason)
    (h : stepOld wrap mt tt tick st = Sum.inl r) :
    r = ExitReason.buttonPressed ∨ (r = ExitReason.maxTimeElapsed ∧ mt ≠ 0) := by
  unfold stepOld at h
  by_cases h2 : ((mt != 0) && ticks_less tt tick.now) = true
  · simp only [h2, if_true] at h
    injection h with h3
    refine Or.inr ⟨h3.symm, ?_⟩
    have h4 : (mt != 0) = true := ((Bool.and_eq_true _ _).mp h2).1
    simpa using h4
  · rw [Bool.not_eq_true] at h2
    simp only [h2, Bool.false_eq_true, if_false] at h
    by_cases h1 : (((events_get (st.queue ++ tick.arrivals)).1.map KeyEvent.pressed).getD false) = true
    · simp only [h1, if_true] at h
      injection h with h3
      exact Or.inl h3.symm
    · rw [Bool.not_eq_true] at h1
      simp only [h1, Bool.false_eq_true, if_false] at h
      exact absurd h (by simp)

lemma stepOld_timeout_first (wrap : String → List String) (mt tt : Nat)
    (tick : SchedTick) (st : SchedState) (hmt : mt ≠ 0)
    (hlt : ticks_less tt tick.now = true) :
    stepOld wrap mt tt tick st = Sum.inl ExitReason.maxTimeElapsed := by
  unfold stepOld
  have hc : ((mt != 0) && ticks_less tt tick.now) = true := by
    simp [hmt, hlt]
  simp [hc]

lemma stepOld_button_exit (wrap : String → List String) (mt tt : Nat)
    (tick : SchedTick) (st : SchedState)
    (h : stepOld wrap mt tt tick st = Sum.inl ExitReason.buttonPressed) :
    (((events_get (st.queue ++ tick.arrivals)).1.map KeyEvent.pressed).getD false) = true := by
  unfold stepOld at h
  by_cases h2 : ((mt != 0) && ticks_less tt tick.now) = true
  · simp only [h2, if_true] at h
    injection h with h3
    exact absurd h3 (by decide)
  · rw [Bool.not_eq_true] at h2
    simp only [h2, Bool.false_eq_true, if_false] at h
    by_cases h1 : (((events_get (st.queue ++ tick.arrivals)).1.map KeyEvent.pressed).getD false) = true
    · exact h1
    · rw [Bool.not_eq_true] at h1
      simp only [h1, Bool.false_eq_true, if_false] at h
      exact absurd h (by simp)

lemma stepOld_inr_queue (wrap : String → List String) (mt tt : Nat)
    (tick : SchedTick) (st st' : SchedState)
    (h : stepOld wrap mt tt tick st = Sum.inr st') :
    st'.queue = (events_get (st.queue ++ tick.arrivals)).2 := by
  unfold stepOld at h
  by_cases h2 : ((mt != 0) && ticks_less tt tick.now) = true
  · simp only [h2, if_true] at h
    exact absurd h (by simp)
  · rw [Bool.not_eq_true] at h2
    simp only [h2, Bool.false_eq_true, if_false] at h
    by_cases h1 : (((events_get (st.queue ++ tick.arrivals)).1.map KeyEvent.pressed).getD false) = true
    · simp only [h1, if_true] at h
      exact absurd h (by simp)
    · rw [Bool.not_eq_true] at h1
      simp only [h1, Bool.false_eq_true, if_false] at h
      injection h with h3
      rw [← h3]
      split <;> rfl

lemma runOld_button_source (wrap : String → List String) (mt tt : Nat) :
    ∀ (ticks : List SchedTick) (st : SchedState),
      (runOld wrap mt tt ticks st).1 = some ExitReason.buttonPressed →
      (∃ e ∈ st.queue, e.pressed = true)
      ∨ (∃ t ∈ ticks, ∃ e ∈ t.arrivals, e.pressed = true) := by
  intro ticks
  induction ticks with
  | nil =>
    intro st hb
    simp [runOld] at hb
  | cons tick rest ih =>
    intro st hb
    unfold runOld at hb
    cases hs : stepOld wrap mt tt tick st with
    | inl r0 =>
      rw [hs] at hb
      simp only [] at hb
      have hr : r0 = ExitReason.buttonPressed := Option.some_inj.mp hb
      subst hr
      have hpress := stepOld_button_exit wrap mt tt tick st hs
      cases hq : st.queue ++ tick.arrivals with
      | nil =>
        rw [hq] at hpress
        simp [events_get] at hpress
      | cons a q =>
        rw [hq] at hpress
        simp only [events_get, Option.map_some', Option.getD_some] at hpress
        have ha : a ∈ st.queue ++ tick.arrivals := by
          rw [hq]; exact List.mem_cons_self _ _
        rcases List.mem_append.mp ha with h1 | h2
        · exact Or.inl ⟨a, h1, hpress⟩
        · exact Or.inr ⟨tick, List.mem_cons_self _ _, a, h2, hpress⟩
    | inr st1 =>
      rw [hs] at hb
      rcases ih st1 hb with ⟨e, he, hp⟩ | ⟨t, ht, e, he, hp⟩
      · have hq := stepOld_inr_queue wrap mt tt tick st st1 hs
        rw [hq] at he
        cases hql : st.queue ++ tick.arrivals with
        | nil =>
          rw [hql] at he
          simp [events_get] at he
        | cons a q =>
          rw [hql] at he
          simp only [events_get] at he
          have hmem : e ∈ st.queue ++ tick.arrivals := by
            rw [hql]; exact List.mem_cons_of_mem _ he
          rcases List.mem_append.mp hmem with h1 | h2
          · exact Or.inl ⟨e, h1, hp⟩
          · exact Or.inr ⟨tick, List.mem_cons_self _ _, e, h2, hp⟩
      · exact Or.inr ⟨t, List.mem_cons_of_mem _ ht, e, he, hp⟩

lemma runFw_inl (wrap : String → List String) (mt tt stt : Nat) :
    ∀ (ticks : List SchedTick) (st : SchedState) (r : ExitReason) (stf : SchedState),
      runFw wrap mt tt stt ticks st = (some r, stf) →
      r = ExitReason.buttonPressed ∨ (r = ExitReason.maxTimeElapsed ∧ mt ≠ 0) := by
  intro ticks
  induction ticks with
  | nil =>
    intro st r stf h
    simp [runFw] at h
  | cons tick rest ih =>
    intro st r stf h
    unfold runFw at h
    cases hs : stepFw wrap mt tt stt tick st with
    | inl r0 =>
      rw [hs] at h
      have hr : r0 = r := by
        have := (Prod.mk.injEq _ _ _ _).mp h
        exact Option.some_inj.mp this.1
      subst hr
      rcases stepFw_inl wrap mt tt stt tick st r0 hs with ⟨hb, _⟩ | ⟨hm, hmt⟩
      · exact Or.inl hb
      · exact Or.inr ⟨hm, hmt⟩
    | inr st1 =>
      rw [hs] at h
      exact ih st1 r stf h

lemma runFw_button_source (wrap : String → List String) (mt tt stt : Nat) :
    ∀ (ticks : List SchedTick) (st : SchedState),
      (runFw wrap mt tt stt ticks st).1 = some ExitReason.buttonPressed →
      (∃ e ∈ st.queue, e.pressed = true)
      ∨ (∃ t ∈ ticks, ∃ e ∈ t.arrivals, e.pressed = true) := by
  intro ticks
  induction ticks with
  | nil =>
    intro st hb
    simp [runFw] at hb
  | cons tick rest ih =>
    intro st hb
    unfold runFw at hb
    cases hs : stepFw wrap mt tt stt tick st with
    | inl r0 =>
      rw [hs] at hb
      simp only [] at hb
      have hr : r0 = ExitReason.buttonPressed := Option.some_inj.mp hb
      subst hr
      rcases stepFw_inl wrap mt tt stt tick st _ hs with ⟨_, hpress⟩ | ⟨habs, _⟩
      · cases hq : st.queue ++ tick.arrivals with
        | nil =>
          rw [hq] at hpress
          simp [events_get] at hpress
        | cons a q =>
          rw [hq] at hpress
          simp only [events_get, Option.map_some', Option.getD_some] at hpress
          have ha : a ∈ st.queue ++ tick.arrivals := by
            rw [hq]; exact List.mem_cons_self _ _
          rcases List.mem_append.mp ha with h1 | h2
          · exact Or.inl ⟨a, h1, hpress⟩
          · exact Or.inr ⟨tick, List.mem_cons_self _ _, a, h2, hpress⟩
      · exact absurd habs (by decide)
    | inr st1 =>
      rw [hs] at hb
      rcases ih st1 hb with ⟨e, he, hp⟩ | ⟨t, ht, e, he, hp⟩
      · have hq := stepFw_inr_queue wrap mt tt stt tick st st1 hs
        rw [hq] at he
        cases hql : st.queue ++ tick.arrivals with
        | nil =>
          rw [hql] at he
          simp [events_get] at he
        | cons a q =>
          rw [hql] at he
          simp only [events_get] at he
          have hmem : e ∈ st.queue ++ tick.arrivals := by
            rw [hql]; exact List.mem_cons_of_mem _ he
          rcases List.mem_append.mp hmem with h1 | h2
          · exact Or.inl ⟨e, h1, hp⟩
          · exact Or.inr ⟨tick, List.mem_cons_self _ _, e, h2, hp⟩
      · exact Or.inr ⟨t, List.mem_cons_of_mem _ ht, e, he, hp⟩

/-- Counterexample to C3 as stated: in the earlier revision's scheduler loop
(src/code.py lines 132-141) the max-wait deadline is checked before the
button event, so with a pressed event pending in the queue and an elapsed
max-wait deadline the iteration exits with the max-wait reason, not the
button reason; the pending press was not checked first. -/
theorem old_scheduler_checks_timeout_before_button_counterexample :
    stepOld wrapOneLine 3600 0 { arrivals := [], now := 1000, now2 := 1000 }
        { queue := [{ pressed := true }], disp := initDisplay
        , screen_time := 0, scroll_time := 0 }
      = Sum.inl ExitReason.maxTimeElapsed
    ∧ ExitReason.maxTimeElapsed ≠ ExitReason.buttonPressed := by
  refine ⟨?_, by decide⟩
  apply stepOld_timeout_first
  · decide
  · decide

/-- C3 amended: in the firmware scheduler (src/firmware/code.py lines
146-160) a pending button-press event is checked first, before the max-wait,
screen-clear and scroll deadlines, and causes an immediate
`buttonPressed` return; the call terminates only on a button press or, when
`max_time` is given, on the max-wait deadline (the screen-clear event never
terminates).  In the earlier revision (src/code.py lines 132-141) the
max-wait deadline is checked before the button event, though its only exits
are likewise button press and elapsed max-wait. -/
theorem wait_scheduler_exit_priority :
    (∀ (wrap : String → List String) (mt tt stt : Nat) (tick : SchedTick)
        (st : SchedState) (e : KeyEvent),
        (st.queue ++ tick.arrivals).head? = some e → e.pressed = true →
        stepFw wrap mt tt stt tick st = Sum.inl ExitReason.buttonPressed)
    ∧ (∀ (wrap : String → List String) (mt tt stt : Nat) (tick : SchedTick)
        (st : SchedState) (r : ExitReason),
        stepFw wrap mt tt stt tick st = Sum.inl r →
        r = ExitReason.buttonPressed ∨ (r = ExitReason.maxTimeElapsed ∧ mt ≠ 0))
    ∧ (∀ (wrap : String → List String) (q0 : List KeyEvent)
        (disp : WrappedTextDisplay) (mt sct entry : Nat)
        (ticks : List SchedTick) (r : ExitReason) (stf : SchedState),
        wait_button_scroll_text_fw wrap q0 disp mt sct entry ticks = (some r, stf) →
        r = ExitReason.buttonPressed ∨ (r = ExitReason.maxTimeElapsed ∧ mt ≠ 0))
    ∧ (∀ (wrap : String → List String) (mt tt : Nat) (tick : SchedTick)
        (st : SchedState), mt ≠ 0 → ticks_less tt tick.now = true →
        stepOld wrap mt tt tick st = Sum.inl ExitReason.maxTimeElapsed)
    ∧ (∀ (wrap : String → List String) (mt tt : Nat) (tick : SchedTick)
        (st : SchedState) (r : ExitReason),
        stepOld wrap mt tt tick st = Sum.inl r →
        r = ExitReason.buttonPressed ∨ (r = ExitReason.maxTimeElapsed ∧ mt ≠ 0)) := by
  refine ⟨stepFw_button_first, ?_, ?_, stepOld_timeout_first, stepOld_inl⟩
  · intro wrap mt tt stt tick st r h
    rcases stepFw_inl wrap mt tt stt tick st r h with ⟨hb, _⟩ | hm
    · exact Or.inl hb
    · exact Or.inr hm
  · intro wrap q0 disp mt sct entry ticks r stf h
    exact runFw_inl wrap mt (ticks_add entry (mt * 1000)) (ticks_add entry (sct * 1000))
      ticks _ r stf h

/-- Witness for `wait_scheduler_exit_priority`: in the firmware step a
pending press exits with `buttonPressed` even though the max-wait deadline
has also elapsed, and the earlier revision exits with `maxTimeElapsed` when
the deadline has passed. -/
theorem wait_scheduler_exit_priority_witness :
    stepFw wrapOneLine 3600 0 0 { arrivals := [{ pressed := true }], now := 5000, now2 := 5000 }
        { queue := [], disp := initDisplay, screen_time := 0, scroll_time := 0 }
      = Sum.inl ExitReason.buttonPressed
    ∧ stepOld wrapOneLine 3600 0 { arrivals := [], now := 5000, now2 := 5000 }
        { queue := [], disp := initDisplay, screen_time := 0, scroll_time := 0 }
      = Sum.inl ExitReason.maxTimeElapsed :=
  ⟨wait_scheduler_exit_priority.1 wrapOneLine 3600 0 0 _ _ { pressed := true } rfl rfl,
   wait_scheduler_exit_priority.2.2.2.1 wrapOneLine 3600 0 _ _ (by decide) (by decide)⟩

/-- C10: every call to `wait_button_scroll_text` — in the firmware version
(src/firmware/code.py line 137) and in the earlier revision (src/code.py
line 128) alike — clears the button event queue at entry, so the call's
outcome is independent of whatever events were queued before it began, and a
`buttonPressed` exit can only be caused by a press event that arrived after
the call started. -/
theorem wait_clears_pending_button_events :
    (∀ (wrap : String → List String) (q0 q1 : List KeyEvent)
        (disp : WrappedTextDisplay) (mt sct entry : Nat) (ticks : List SchedTick),
        wait_button_scroll_text_fw wrap q0 disp mt sct entry ticks
          = wait_button_scroll_text_fw wrap q1 disp mt sct entry ticks)
    ∧ (∀ (wrap : String → List String) (q0 : List KeyEvent)
        (disp : WrappedTextDisplay) (mt sct entry : Nat) (ticks : List SchedTick),
        (wait_button_scroll_text_fw wrap q0 disp mt sct entry ticks).1
            = some ExitReason.buttonPressed →
        ∃ t ∈ ticks, ∃ e ∈ t.arrivals, e.pressed = true)
    ∧ (∀ (wrap : String → List String) (q0 q1 : List KeyEvent)
        (disp : WrappedTextDisplay) (mt entry entry2 : Nat) (ticks : List SchedTick),
        wait_button_scroll_text_old wrap q0 disp mt entry entry2 ticks
          = wait_button_scroll_text_old wrap q1 disp mt entry entry2 ticks)
    ∧ (∀ (wrap : String → List String) (q0 : List KeyEvent)
        (disp : WrappedTextDisplay) (mt entry entry2 : Nat) (ticks : List SchedTick),
        (wait_button_scroll_text_old wrap q0 disp mt entry entry2 ticks).1
            = some ExitReason.buttonPressed →
        ∃ t ∈ ticks, ∃ e ∈ t.arrivals, e.pressed = true) := by
  refine ⟨?_, ?_, ?_, ?_⟩
  · intro wrap q0 q1 disp mt sct entry ticks
    rfl
  · intro wrap q0 disp mt sct entry ticks h
    have hsrc := runFw_button_source wrap mt (ticks_add entry (mt * 1000))
      (ticks_add entry (sct * 1000)) ticks
      { queue := [], disp := disp, screen_time := sct
      , scroll_time := ticks_add entry (if on_last_line disp then 6000 else 1000) } h
    rcases hsrc with ⟨e, he, _⟩ | hout
    · exact absurd he (List.not_mem_nil e)
    · exact hout
  · intro wrap q0 q1 disp mt entry entry2 ticks
    rfl
  · intro wrap q0 disp mt entry entry2 ticks h
    have hsrc := runOld_button_source wrap mt (ticks_add entry2 (mt * 1000)) ticks
      { queue := [], disp := disp, screen_time := 0
      , scroll_time := ticks_add entry (if on_last_line disp then 5000 else 1000) } h
    rcases hsrc with ⟨e, he, _⟩ | hout
    · exact absurd he (List.not_mem_nil e)
    · exact hout

/-- Witness for `wait_clears_pending_button_events`: with a stale press in
the entry queue and a fresh press arriving at the first iteration, both
revisions' calls exit `buttonPressed` and the theorem locates a post-entry
pressed arrival each time. -/
theorem wait_clears_pending_button_events_witness :
    (∃ t ∈ [({ arrivals := [{ pressed := true }], now := 7, now2 := 7 } : SchedTick)],
      ∃ e ∈ t.arrivals, e.pressed = true)
    ∧ (∃ t ∈ [({ arrivals := [{ pressed := true }], now := 9, now2 := 9 } : SchedTick)],
      ∃ e ∈ t.arrivals, e.pressed = true) :=
  ⟨wait_clears_pending_button_events.2.1 wrapOneLine [{ pressed := false }]
    initDisplay 0 0 0 [{ arrivals := [{ pressed := true }], now := 7, now2 := 7 }] rfl,
   wait_clears_pending_button_events.2.2.2 wrapOneLine [{ pressed := false }]
    initDisplay 0 0 0 [{ arrivals := [{ pressed := true }], now := 9, now2 := 9 }] rfl⟩

/-! Poll control loop and data fetch (src/firmware/code.py lines 162-185 and
314-331). -/

/-- The `signature` object of the Sentry payload. -/
structure SentrySignature where
  source : String
  version : String
  deriving DecidableEq, Repr

/-- A parsed JSON payload from the Sentry endpoint. -/
structure SentryPayload where
  signature : SentrySignature
  data : List ObjRecord
  deriving DecidableEq, Repr

/-- An HTTP response as seen by `fetch_latest_data`: status code, reason
phrase, and the parsed JSON body. -/
structure HttpResponse where
  status_code : Nat
  reason : String
  payload : SentryPayload
  deriving DecidableEq, Repr

/-- Embedding of `fetch_latest_data` (src/firmware/code.py lines 162-185)
applied to the response the network collaborator produced: raise on a
non-200 status, raise on a signature whose source or version is unexpected,
otherwise return the payload's `data` array.  A raised exception is the
`Except.error` case. -/
def fetch_latest_data (response : HttpResponse) : Except String (List ObjRecord) :=
  if response.status_code ≠ 200 then
    Except.error ("Bad HTTP response: " ++ toString response.status_code
      ++ " " ++ response.reason)
  else if response.payload.signature.source ≠ "NASA/JPL Sentry Data API"
      || response.payload.signature.version ≠ "2.0" then
    Except.error "Unexpected data format"
  else
    Except.ok response.payload.data

/-- What the body of the main loop shows on the display. -/
inductive DisplayAction
  | showUpdates (objects : List ObjRecord)
  | showNoNewThreats
  deriving DecidableEq, Repr

/-- Outcome of one iteration of the main polling loop: the new baseline, the
diff result, what was displayed, and the arguments passed to
`wait_button_scroll_text` (`wait_max_time = 0` means no max-wait). -/
structure IterationResult where
  saved_objects : List ObjRecord
  updates : List ObjRecord
  action : DisplayAction
  wait_max_time : Nat
  wait_screen_time : Nat
  deriving DecidableEq, Repr

def check_interval : Nat := 1 * 60 * 60

def display_time : Nat := 10

/-- Embedding of one iteration of the firmware main loop body
(src/firmware/code.py lines 315-331), given the fetched latest snapshot:
diff against the baseline, replace the baseline by the latest snapshot
(`saved_objects = latest_objects`, the list whose records the diff mutated in
place), then either display the updates and wait with no max-wait, or show
the no-new-threats message and wait with `check_interval` and
`display_time`. -/
def mainLoopIteration (saved_objects latest_objects : List ObjRecord) :
    IterationResult :=
  let r := check_for_updates saved_objects latest_objects
  let updates := r.2
  let saved := r.1
  if updates.isEmpty then
    { saved_objects := saved, updates := updates
    , action := DisplayAction.showNoNewThreats
    , wait_max_time := check_interval, wait_screen_time := display_time }
  else
    { saved_objects := saved, updates := updates
    , action := DisplayAction.showUpdates updates
    , wait_max_time := 0, wait_screen_time := 0 }

/-- One iteration of the poll control loop including the fetch: an error from
`fetch_latest_data` propagates out of the iteration (no retry and no fallback
path exist between the fetch and the outermost handler). -/
def pollIteration (saved_objects : List ObjRecord) (response : HttpResponse) :
    Except String IterationResult :=
  match fetch_latest_data response with
  | Except.error e => Except.error e
  | Except.ok latest_objects => Except.ok (mainLoopIteration saved_objects latest_objects)

/-- C9: `fetch_latest_data` raises exactly when the status is not 200 or the
signature source or version is unexpected; otherwise it returns the payload's
data array; and any such error propagates out of the poll iteration uncaught
(fatal, no retry). -/
theorem fetch_latest_data_validation (response : HttpResponse) :
    ((∃ e, fetch_latest_data response = Except.error e) ↔
      (response.status_code ≠ 200
        ∨ response.payload.signature.source ≠ "NASA/JPL Sentry Data API"
        ∨ response.payload.signature.version ≠ "2.0"))
    ∧ (response.status_code = 200 →
        response.payload.signature.source = "NASA/JPL Sentry Data API" →
        response.payload.signature.version = "2.0" →
        fetch_latest_data response = Except.ok response.payload.data)
    ∧ (∀ (saved : List ObjRecord) (e : String),
        fetch_latest_data response = Except.error e →
        pollIteration saved response = Except.error e) := by
  refine ⟨⟨?_, ?_⟩, ?_, ?_⟩
  · intro ⟨e, he⟩
    by_contra hcon
    push_neg at hcon
    obtain ⟨h1, h2, h3⟩ := hcon
    unfold fetch_latest_data at he
    rw [if_neg (by simpa using h1)] at he
    rw [if_neg (by simp [h2, h3])] at he
    exact absurd he (by simp)
  · intro hbad
    unfold fetch_latest_data
    rcases hbad with h1 | h2 | h3
    · exact ⟨_, by rw [if_pos h1]⟩
    · by_cases hs : response.status_code ≠ 200
      · exact ⟨_, by rw [if_pos hs]⟩
      · push_neg at hs
        exact ⟨"Unexpected data format",
          by rw [if_neg (by simpa using hs), if_pos (by simp [h2])]⟩
    · by_cases hs : response.status_code ≠ 200
      · exact ⟨_, by rw [if_pos hs]⟩
      · push_neg at hs
        exact ⟨"Unexpected data format",
          by rw [if_neg (by simpa using hs), if_pos (by simp [h3])]⟩
  · intro h1 h2 h3
    unfold fetch_latest_data
    rw [if_neg (by simpa using h1), if_neg (by simp [h2, h3])]
  · intro saved e he
    unfold pollIteration
    rw [he]

/-- Witness for `fetch_latest_data_validation`: a well-formed 200 response
yields its data array, and a 404 response's error propagates out of the poll
iteration. -/
theorem fetch_latest_data_validation_witness :
    fetch_latest_data
        { status_code := 200
        , reason := "OK"
        , payload := { signature := { source := "NASA/JPL Sentry Data API", version := "2.0" }
                     , data := [{ id := "A", ps_cum := 0, ts_max := none }] } }
      = Except.ok [{ id := "A", ps_cum := 0, ts_max := none }]
    ∧ pollIteration []
        { status_code := 404
        , reason := "Not Found"
        , payload := { signature := { source := "NASA/JPL Sentry Data API", version := "2.0" }
                     , data := [] } }
      = Except.error "Bad HTTP response: 404 Not Found" :=
  ⟨(fetch_latest_data_validation _).2.1 rfl rfl rfl,
   (fetch_latest_data_validation _).2.2 [] "Bad HTTP response: 404 Not Found" (by rfl)⟩

/-- C8: in every iteration of the poll control loop the baseline is replaced
wholesale by the latest snapshot (the list mutated in place by the diff,
identical to the fetched snapshot up to `is_new` marks) regardless of the
diff outcome; a non-empty diff renders the updates and waits with no max-wait
and no screen-clear, and an empty diff shows the no-new-threats message and
waits with `max_wait = check_interval` and the `display_time` screen-clear
duration. -/
theorem poll_loop_replaces_baseline_and_schedules_wait
    (saved latest : List ObjRecord) :
    (mainLoopIteration saved latest).saved_objects = (check_for_updates saved latest).1
    ∧ (mainLoopIteration saved latest).saved_objects.map withoutIsNew
        = latest.map withoutIsNew
    ∧ (mainLoopIteration saved latest).updates = (check_for_updates saved latest).2
    ∧ ((check_for_updates saved latest).2 ≠ [] →
        (mainLoopIteration saved latest).action
            = DisplayAction.showUpdates (check_for_updates saved latest).2
        ∧ (mainLoopIteration saved latest).wait_max_time = 0
        ∧ (mainLoopIteration saved latest).wait_screen_time = 0)
    ∧ ((check_for_updates saved latest).2 = [] →
        (mainLoopIteration saved latest).action = DisplayAction.showNoNewThreats
        ∧ (mainLoopIteration saved latest).wait_max_time = check_interval
        ∧ (mainLoopIteration saved latest).wait_screen_time = display_time) := by
  by_cases h : (check_for_updates saved latest).2 = []
  · have heq : mainLoopIteration saved latest
        = { saved_objects := (check_for_updates saved latest).1
          , updates := (check_for_updates saved latest).2
          , action := DisplayAction.showNoNewThreats
          , wait_max_time := check_interval, wait_screen_time := display_time } := by
      unfold mainLoopIteration
      rw [if_pos (by simp [List.isEmpty_iff, h])]
    rw [heq]
    exact ⟨rfl, check_for_updates_fst_fields saved latest, rfl,
      fun hne => absurd h hne, fun _ => ⟨rfl, rfl, rfl⟩⟩
  · have heq : mainLoopIteration saved latest
        = { saved_objects := (check_for_updates saved latest).1
          , updates := (check_for_updates saved latest).2
          , action := DisplayAction.showUpdates (check_for_updates saved latest).2
          , wait_max_time := 0, wait_screen_time := 0 } := by
      unfold mainLoopIteration
      rw [if_neg (by simp [List.isEmpty_iff, h])]
    rw [heq]
    exact ⟨rfl, check_for_updates_fst_fields saved latest, rfl,
      fun _ => ⟨rfl, rfl, rfl⟩, fun hnil => absurd hnil h⟩

/-- Witness for `poll_loop_replaces_baseline_and_schedules_wait`: a new
object yields an unbounded wait, and an empty diff yields the poll-interval
wait with the screen-clear duration. -/
theorem poll_loop_replaces_baseline_and_schedules_wait_witness :
    (mainLoopIteration [] [{ id := "A", ps_cum := 0, ts_max := none }]).wait_max_time = 0
    ∧ (mainLoopIteration [] []).wait_max_time = check_interval
    ∧ (mainLoopIteration [] []).wait_screen_time = display_time :=
  ⟨((poll_loop_replaces_baseline_and_schedules_wait []
      [{ id := "A", ps_cum := 0, ts_max := none }]).2.2.2.1 (by decide)).2.1,
   ((poll_loop_replaces_baseline_and_schedules_wait [] []).2.2.2.2 rfl).2.1,
   ((poll_loop_replaces_baseline_and_schedules_wait [] []).2.2.2.2 rfl).2.2⟩
